import Mathlib

/-!
Verification of the ntl::Sockaddr value type from
src/FirewallEventMonitor/ntl/ntlSockaddr.hpp.

The SOCKADDR_STORAGE buffer is modelled as a function from byte offsets
(Fin SADDR_SIZE) to byte values (Nat, with an explicit % 256 at every
store site, mirroring the truncation performed by byte and word stores on
real memory).  Offsets follow the Windows x86/x64 little-endian layout of
SOCKADDR_IN and SOCKADDR_IN6:

* offset 0..1   ss_family / sin_family / sin6_family (16-bit, little-endian)
* offset 2..3   sin_port / sin6_port (16-bit value stored little-endian;
                the port value itself is kept in network byte order, so
                htons / ntohs swap bytes)
* offset 4..7   sin_addr (IPv4) or sin6_flowinfo (IPv6, 32-bit LE)
* offset 8..23  sin6_addr (16 bytes)
* offset 24..27 sin6_scope_id (32-bit LE)
* everything beyond is zero padding up to SADDR_SIZE = 128 bytes.

Operations that call ntl::AlwaysFatalCondition are modelled as Option,
with none standing for the unrecoverable fatal path.
-/

namespace ntl

/-- Size in bytes of SOCKADDR_STORAGE, the fixed storage of ntl::Sockaddr. -/
def SADDR_SIZE : Nat := 128

/-- Winsock address family constant AF_UNSPEC. -/
def AF_UNSPEC : Nat := 0

/-- Winsock address family constant AF_INET (IPv4). -/
def AF_INET : Nat := 2

/-- Winsock address family constant AF_INET6 (IPv6). -/
def AF_INET6 : Nat := 23

/-- Maximum length of a rendered address string, from ntlSockaddr.hpp. -/
def IP_STRING_MAX_LENGTH : Nat := 65

/-- Byte order selector passed to setPort, from ntlSockaddr.hpp. -/
inductive ByteOrder
  | HostOrder
  | NetworkOrder
deriving DecidableEq

/-- The Sockaddr value: a fixed 128-byte SOCKADDR_STORAGE buffer. -/
structure Sockaddr where
  buf : Fin SADDR_SIZE → Nat

instance : DecidableEq Sockaddr := fun a b =>
  decidable_of_iff (∀ k, a.buf k = b.buf k)
    ⟨fun h => by cases a; cases b; exact congrArg Sockaddr.mk (funext h),
     fun h k => by rw [h]⟩

/-- Byte offset into the storage buffer. -/
def idx (n : Nat) : Fin SADDR_SIZE := ⟨n % SADDR_SIZE, Nat.mod_lt n (by decide)⟩

theorem idx_val (n : Nat) : (idx n).val = n % SADDR_SIZE := rfl

/-- htons on a 16-bit value: swap the two bytes. -/
def htons (v : Nat) : Nat := (v % 256) * 256 + (v / 256) % 256

/-- ntohs on a 16-bit value: swap the two bytes. -/
def ntohs (v : Nat) : Nat := (v % 256) * 256 + (v / 256) % 256

/-- ss_family accessor: the 16-bit little-endian word at offset 0. -/
def family (s : Sockaddr) : Nat :=
  s.buf (idx 0) % 256 + 256 * (s.buf (idx 1) % 256)

/-- sin_port as stored in the buffer: the 16-bit little-endian word at
offset 2, an offset shared by the SOCKADDR_IN and SOCKADDR_IN6 layouts. -/
def sinPortWord (s : Sockaddr) : Nat :=
  s.buf (idx 2) % 256 + 256 * (s.buf (idx 3) % 256)

/-- Sockaddr::port(): reinterpret the buffer as SOCKADDR_IN regardless of
family and return ntohs(sin_port). -/
def port (s : Sockaddr) : Nat := ntohs (sinPortWord s)

/-- Sockaddr::Sockaddr(short family) and Sockaddr::reset(short family):
ZeroMemory the buffer, then store the family discriminator. -/
def sockaddrOfFamily (fam : Nat) : Sockaddr :=
  ⟨fun k => if k.val = 0 then fam % 256
    else if k.val = 1 then (fam / 256) % 256
    else 0⟩

/-- Sockaddr::Sockaddr(Sockaddr&&): CopyMemory from the source buffer; the
source buffer is not modified.  Returns the pair (constructed value,
state of the source after the operation). -/
def moveCtor (src : Sockaddr) : Sockaddr × Sockaddr := (⟨src.buf⟩, src)

/-- Sockaddr::operator=(Sockaddr&&): CopyMemory from the source buffer,
then ZeroMemory the source buffer.  Returns the pair (assigned-to value,
state of the source after the operation). -/
def moveAssign (dest src : Sockaddr) : Sockaddr × Sockaddr :=
  (⟨src.buf⟩, ⟨fun _ => 0⟩)

/-- Value stored into sin_port by Sockaddr::setPort: htons of the argument
for host order, the argument unchanged for network order. -/
def portStored (v : Nat) : ByteOrder → Nat
  | ByteOrder.HostOrder => htons v
  | ByteOrder.NetworkOrder => v

/-- Sockaddr::setPort: store the 16-bit port word little-endian at offset 2
through the SOCKADDR_IN view, with no family check. -/
def setPort (s : Sockaddr) (v : Nat) (order : ByteOrder) : Sockaddr :=
  ⟨fun k => if k.val = 2 then portStored v order % 256
    else if k.val = 3 then (portStored v order / 256) % 256
    else s.buf k⟩

/-- Sockaddr::setAddressLoopback: for AF_INET, save sin_port, ZeroMemory,
restore family and port, store s_addr = 0x0100007f (bytes 127.0.0.1); for
AF_INET6, save sin6_port, ZeroMemory, restore family and port, set byte 15
of sin6_addr (buffer offset 23) to 1; otherwise AlwaysFatalCondition,
modelled as none. -/
def setAddressLoopback (s : Sockaddr) : Option Sockaddr :=
  if family s = AF_INET then
    some ⟨fun k => if k.val = 0 then AF_INET % 256
      else if k.val = 1 then (AF_INET / 256) % 256
      else if k.val = 2 then s.buf (idx 2) % 256
      else if k.val = 3 then s.buf (idx 3) % 256
      else if k.val = 4 then 0x0100007f % 256
      else if k.val = 5 then (0x0100007f / 256) % 256
      else if k.val = 6 then (0x0100007f / 65536) % 256
      else if k.val = 7 then (0x0100007f / 16777216) % 256
      else 0⟩
  else if family s = AF_INET6 then
    some ⟨fun k => if k.val = 0 then AF_INET6 % 256
      else if k.val = 1 then (AF_INET6 / 256) % 256
      else if k.val = 2 then s.buf (idx 2) % 256
      else if k.val = 3 then s.buf (idx 3) % 256
      else if k.val = 23 then 1
      else 0⟩
  else none

/-- Sockaddr::setAddressAny: for AF_INET and AF_INET6, save the port,
ZeroMemory, restore family and port (the wildcard address is all zero
bytes); for any other family the function does nothing. -/
def setAddressAny (s : Sockaddr) : Sockaddr :=
  if family s = AF_INET then
    ⟨fun k => if k.val = 0 then AF_INET % 256
      else if k.val = 1 then (AF_INET / 256) % 256
      else if k.val = 2 then s.buf (idx 2) % 256
      else if k.val = 3 then s.buf (idx 3) % 256
      else 0⟩
  else if family s = AF_INET6 then
    ⟨fun k => if k.val = 0 then AF_INET6 % 256
      else if k.val = 1 then (AF_INET6 / 256) % 256
      else if k.val = 2 then s.buf (idx 2) % 256
      else if k.val = 3 then s.buf (idx 3) % 256
      else 0⟩
  else s

/-- Sockaddr::isAddressLoopback: copy the instance, apply
setAddressLoopback to the copy (inheriting its fatal path, modelled as
none), then memcmp the copy against the original. -/
def isAddressLoopback (s : Sockaddr) : Option Bool :=
  match setAddressLoopback s with
  | some lb => some (decide (lb = s))
  | none => none

/-- Sockaddr::isAddressAny: copy the instance, apply setAddressAny to the
copy, then memcmp the copy against the original. -/
def isAddressAny (s : Sockaddr) : Bool :=
  decide (setAddressAny s = s)

/-- Sockaddr::mapDualMode4To6: build a fresh AF_INET6 Sockaddr, set its
sin6_addr to the v4-mapped prefix ::ffff:0:0 (bytes 10 and 11 of the
address, buffer offsets 18 and 19, equal 0xff), overwrite address bytes
12..15 (buffer offsets 20..23) with the four octets of this instance's
sin_addr (buffer offsets 4..7) in stored order, copy this instance's
port via setPort in host order, then swap buffers with the temporary. -/
def mapDualMode4To6 (s : Sockaddr) : Sockaddr :=
  setPort
    ⟨fun k => if k.val = 0 then AF_INET6 % 256
      else if k.val = 1 then (AF_INET6 / 256) % 256
      else if k.val = 18 then 255
      else if k.val = 19 then 255
      else if k.val = 20 then s.buf (idx 4) % 256
      else if k.val = 21 then s.buf (idx 5) % 256
      else if k.val = 22 then s.buf (idx 6) % 256
      else if k.val = 23 then s.buf (idx 7) % 256
      else 0⟩
    (port s) ByteOrder.HostOrder

/-- Sockaddr::flowinfo: sin6_flowinfo (32-bit little-endian at offset 4)
when the family is AF_INET6, otherwise 0. -/
def flowinfo (s : Sockaddr) : Nat :=
  if family s = AF_INET6 then
    s.buf (idx 4) % 256 + 256 * (s.buf (idx 5) % 256)
      + 65536 * (s.buf (idx 6) % 256) + 16777216 * (s.buf (idx 7) % 256)
  else 0

/-- Sockaddr::scopeId: sin6_scope_id (32-bit little-endian at offset 24)
when the family is AF_INET6, otherwise 0. -/
def scopeId (s : Sockaddr) : Nat :=
  if family s = AF_INET6 then
    s.buf (idx 24) % 256 + 256 * (s.buf (idx 25) % 256)
      + 65536 * (s.buf (idx 26) % 256) + 16777216 * (s.buf (idx 27) % 256)
  else 0

/-- Sockaddr::setFlowInfo: store the 32-bit value little-endian at offset 4
when the family is AF_INET6, otherwise do nothing. -/
def setFlowInfo (s : Sockaddr) (v : Nat) : Sockaddr :=
  if family s = AF_INET6 then
    ⟨fun k => if k.val = 4 then v % 256
      else if k.val = 5 then (v / 256) % 256
      else if k.val = 6 then (v / 65536) % 256
      else if k.val = 7 then (v / 16777216) % 256
      else s.buf k⟩
  else s

/-- Sockaddr::setScopeId: store the 32-bit value little-endian at offset 24
when the family is AF_INET6, otherwise do nothing. -/
def setScopeId (s : Sockaddr) (v : Nat) : Sockaddr :=
  if family s = AF_INET6 then
    ⟨fun k => if k.val = 24 then v % 256
      else if k.val = 25 then (v / 256) % 256
      else if k.val = 26 then (v / 65536) % 256
      else if k.val = 27 then (v / 16777216) % 256
      else s.buf k⟩
  else s

/-- Sockaddr::setSockaddr(const SOCKADDR*, int): clamp the length to
SADDR_SIZE, ZeroMemory the buffer, then CopyMemory that many bytes from
the source bytes.  The previous contents are discarded entirely. -/
def setSockaddrRaw (s : Sockaddr) (src : Nat → Nat) (inLength : Nat) : Sockaddr :=
  let length := if inLength ≤ SADDR_SIZE then inLength else SADDR_SIZE
  ⟨fun k => if k.val < length then src k.val % 256 else 0⟩

/-- Sockaddr::setAddress(LPCWSTR) and Sockaddr::setAddress(LPCSTR): call
GetAddrInfo with AI_NUMERICHOST; the OS parse outcome is passed in as an
optional pair of (raw sockaddr bytes, length).  On success, call
setSockaddr with the parse result and return true; on failure, return
false and leave the instance untouched. -/
def setAddressNumericHost (s : Sockaddr) (parseResult : Option ((Nat → Nat) × Nat)) :
    Bool × Sockaddr :=
  match parseResult with
  | some r => (true, setSockaddrRaw s r.1 r.2)
  | none => (false, s)

/-- Modelled from the spec: the numeric-host parse performed by
GetAddrInfoW with AI_NUMERICHOST is an external OS collaborator, not part
of this repository.  Per the spec, a literal-only parse yields the parsed
family and address and does not set a port, so for the IPv4 literal
127.0.0.1 the resolver returns a 16-byte SOCKADDR_IN with family AF_INET,
port 0, and address bytes 127.0.0.1. -/
def numericHostResult127001 : Option ((Nat → Nat) × Nat) :=
  some (fun k => if k = 0 then 2 else if k = 4 then 127 else if k = 7 then 1 else 0, 16)

/-- Demo value: an AF_INET Sockaddr with port 8080 set in host order. -/
def demoV4port8080 : Sockaddr :=
  setPort (sockaddrOfFamily AF_INET) 8080 ByteOrder.HostOrder

/-- Demo value: the IPv4 endpoint 1.2.3.4 with port 80 set in host order. -/
def demoV4of1234 : Sockaddr :=
  setPort
    ⟨fun k => if k.val = 0 then 2
      else if k.val = 4 then 1
      else if k.val = 5 then 2
      else if k.val = 6 then 3
      else if k.val = 7 then 4
      else 0⟩
    80 ByteOrder.HostOrder

/-- Demo value: an AF_INET6 Sockaddr with port 443 and scope id 3. -/
def demoV6scoped : Sockaddr :=
  setScopeId
    (setPort
      ⟨fun k => if k.val = 0 then 23 else if k.val = 8 then 254
        else if k.val = 9 then 128 else if k.val = 23 then 1 else 0⟩
      443 ByteOrder.HostOrder)
    3

/-- Character-level access used by the writeCompleteAddress trim loops:
the character at an index of the rendered buffer, 0 when out of range. -/
def getNth : List Nat → Nat → Nat
  | [], _ => 0
  | b :: _, 0 => b
  | _ :: bs, Nat.succ n => getNth bs n

/-- Character-level store used by the writeCompleteAddress trim loops:
write a character at an index of the rendered buffer; out-of-range writes
leave the buffer unchanged (they cannot occur in the modelled loops). -/
def setNth : List Nat → Nat → Nat → List Nat
  | [], _, _ => []
  | _ :: bs, 0, v => v :: bs
  | b :: bs, Nat.succ n, v => b :: setNth bs n v

/-- std::find over the first len characters of the rendered buffer:
the index of the first occurrence of the character c, or len when c does
not occur among those characters. -/
def stdFind : List Nat → Nat → Nat → Nat
  | _, _, 0 => 0
  | [], _, Nat.succ _ => 0
  | b :: bs, c, Nat.succ n => if b = c then 0 else stdFind bs c n + 1

/-- Shift loop of writeCompleteAddress: while the move pointer has not
reached end, copy one character from the move pointer onto the scope
pointer and advance both. -/
def copyLoop : List Nat → Nat → Nat → Nat → List Nat
  | buf, _, _, 0 => buf
  | buf, scopeIdx, movIdx, Nat.succ n =>
      copyLoop (setNth buf scopeIdx (getNth buf movIdx)) (scopeIdx + 1) (movIdx + 1) n

/-- Truncation loop of writeCompleteAddress: while the scope pointer has
not reached end, store a NUL character and advance. -/
def zeroLoop : List Nat → Nat → Nat → List Nat
  | buf, _, 0 => buf
  | buf, scopeIdx, Nat.succ n => zeroLoop (setNth buf scopeIdx 0) (scopeIdx + 1) n

/-- Scope-trimming step of writeCompleteAddress on the rendered buffer of
length len (len counts the characters written by WSAAddressToString,
terminator included): find the first percent character (code 37) within
len; if present, find the first closing bracket (code 93) within len; if
the bracket is present shift the characters from it leftwards onto the
percent position, otherwise overwrite from the percent position to the
end with NUL characters. -/
def trimScopeStep (buf : List Nat) (len : Nat) : List Nat :=
  let scopeIdx := stdFind buf 37 len
  if scopeIdx ≠ len then
    let movIdx := stdFind buf 93 len
    if movIdx ≠ len then copyLoop buf scopeIdx movIdx (len - movIdx)
    else zeroLoop buf scopeIdx (len - scopeIdx)
  else buf

/-- Post-formatting step of Sockaddr::writeCompleteAddress: the trim is
applied only when the family is AF_INET6 and trim_scope is set; otherwise
the rendered buffer is returned unchanged. -/
def writeCompleteAddressTrim (fam : Nat) (trim : Bool) (buf : List Nat) (len : Nat) :
    List Nat :=
  if fam = AF_INET6 then if trim then trimScopeStep buf len else buf else buf

/-- Demo value: the 65-character rendered buffer holding the string
produced by WSAAddressToString for a scoped IPv6 endpoint, namely
bracketed fe80::1 with scope 3 and port 443, NUL terminated then
zero padding. -/
def demoRendered : List Nat :=
  [91, 102, 101, 56, 48, 58, 58, 49, 37, 51, 93, 58, 52, 52, 51, 0]
    ++ List.replicate 49 0

theorem getNth_nil (k : Nat) : getNth [] k = 0 := by cases k <;> rfl

theorem getNth_of_length_le : ∀ (l : List Nat) (k : Nat), l.length ≤ k → getNth l k = 0 := by
  intro l
  induction l with
  | nil => intro k _; exact getNth_nil k
  | cons b bs ih =>
    intro k hk
    cases k with
    | zero => simp at hk
    | succ n => exact ih n (by simpa using hk)

theorem length_setNth : ∀ (l : List Nat) (i v : Nat), (setNth l i v).length = l.length := by
  intro l
  induction l with
  | nil => intro i v; rfl
  | cons b bs ih =>
    intro i v
    cases i with
    | zero => rfl
    | succ n => simp [setNth, ih]

theorem getNth_setNth : ∀ (l : List Nat) (i v k : Nat),
    getNth (setNth l i v) k = if i = k ∧ i < l.length then v else getNth l k := by
  intro l
  induction l with
  | nil =>
    intro i v k
    simp [setNth, getNth_nil]
  | cons b bs ih =>
    intro i v k
    cases i with
    | zero =>
      cases k with
      | zero => simp [setNth, getNth]
      | succ n => simp [setNth, getNth]
    | succ m =>
      cases k with
      | zero => simp [setNth, getNth]
      | succ n =>
        simp only [setNth, getNth, List.length_cons]
        rw [ih m v n]
        by_cases h : m = n ∧ m < bs.length
        · rw [if_pos h, if_pos (by omega : m + 1 = n + 1 ∧ m + 1 < bs.length + 1)]
        · rw [if_neg h, if_neg (by omega)]

theorem copyLoop_getNth : ∀ (cnt : Nat) (buf : List Nat) (scopeIdx movIdx : Nat),
    scopeIdx ≤ movIdx → ∀ k,
    getNth (copyLoop buf scopeIdx movIdx cnt) k =
      if scopeIdx ≤ k ∧ k < scopeIdx + cnt then getNth buf (movIdx + (k - scopeIdx))
      else getNth buf k := by
  intro cnt
  induction cnt with
  | zero =>
    intro buf scopeIdx movIdx _ k
    rw [if_neg (by omega)]
    rfl
  | succ n ih =>
    intro buf scopeIdx movIdx hle k
    show getNth (copyLoop (setNth buf scopeIdx (getNth buf movIdx))
        (scopeIdx + 1) (movIdx + 1) n) k = _
    rw [ih (setNth buf scopeIdx (getNth buf movIdx)) (scopeIdx + 1) (movIdx + 1)
      (by omega) k]
    by_cases hA : scopeIdx + 1 ≤ k ∧ k < scopeIdx + 1 + n
    · rw [if_pos hA, if_pos (by omega : scopeIdx ≤ k ∧ k < scopeIdx + (n + 1))]
      rw [getNth_setNth]
      rw [if_neg (by omega)]
      have harith : movIdx + 1 + (k - (scopeIdx + 1)) = movIdx + (k - scopeIdx) := by omega
      rw [harith]
    · rw [if_neg hA]
      rw [getNth_setNth]
      by_cases hk : k = scopeIdx
      · subst hk
        rw [if_pos (by omega : k ≤ k ∧ k < k + (n + 1))]
        by_cases hlen : k < buf.length
        · rw [if_pos ⟨rfl, hlen⟩]
          simp
        · rw [if_neg (by omega)]
          rw [getNth_of_length_le buf k (by omega),
            getNth_of_length_le buf (movIdx + (k - k)) (by omega)]
      · rw [if_neg (by omega), if_neg (by omega)]

theorem zeroLoop_getNth : ∀ (cnt : Nat) (buf : List Nat) (scopeIdx : Nat) (k : Nat),
    getNth (zeroLoop buf scopeIdx cnt) k =
      if scopeIdx ≤ k ∧ k < scopeIdx + cnt then 0 else getNth buf k := by
  intro cnt
  induction cnt with
  | zero =>
    intro buf scopeIdx k
    rw [if_neg (by omega)]
    rfl
  | succ n ih =>
    intro buf scopeIdx k
    show getNth (zeroLoop (setNth buf scopeIdx 0) (scopeIdx + 1) n) k = _
    rw [ih (setNth buf scopeIdx 0) (scopeIdx + 1) k]
    by_cases hA : scopeIdx + 1 ≤ k ∧ k < scopeIdx + 1 + n
    · rw [if_pos hA, if_pos (by omega : scopeIdx ≤ k ∧ k < scopeIdx + (n + 1))]
    · rw [if_neg hA]
      rw [getNth_setNth]
      by_cases hk : k = scopeIdx
      · subst hk
        rw [if_pos (by omega : k ≤ k ∧ k < k + (n + 1))]
        by_cases hlen : k < buf.length
        · rw [if_pos ⟨rfl, hlen⟩]
        · rw [if_neg (by omega)]
          exact getNth_of_length_le buf k (by omega)
      · rw [if_neg (by omega), if_neg (by omega)]

theorem stdFind_le : ∀ (l : List Nat) (c len : Nat), stdFind l c len ≤ len := by
  intro l
  induction l with
  | nil => intro c len; cases len <;> simp [stdFind]
  | cons b bs ih =>
    intro c len
    cases len with
    | zero => simp [stdFind]
    | succ n =>
      simp only [stdFind]
      by_cases h : b = c
      · rw [if_pos h]; omega
      · rw [if_neg h]
        have := ih c n
        omega

/-- C1 counterexample: the claim states that move construction zeroes the
source buffer, leaving the moved-from instance all zero.  The code's move
constructor only copies: after move-constructing from an AF_INET
instance, the source's family byte is still 2, not 0. -/
theorem C1_counterexample :
    (moveCtor (sockaddrOfFamily AF_INET)).2.buf (idx 0) = 2 ∧ (2 : Nat) ≠ 0 := by
  decide

/-- C1 (amended): move assignment duplicates the source buffer into the
destination and then zeroes the source, leaving it equal to a default
all-zero AF_UNSPEC instance; move construction duplicates the buffer but
leaves the source completely unchanged. -/
theorem C1_move_semantics (dest src : Sockaddr) :
    (moveCtor src).1 = src ∧
    (moveCtor src).2 = src ∧
    (moveAssign dest src).1 = src ∧
    (moveAssign dest src).2 = sockaddrOfFamily AF_UNSPEC ∧
    family (moveAssign dest src).2 = AF_UNSPEC := by
  refine ⟨rfl, rfl, rfl, ?_, ?_⟩
  · apply congrArg Sockaddr.mk
    funext k
    simp [sockaddrOfFamily, AF_UNSPEC]
  · rfl

/-- C6: when the family is not AF_INET6, flowinfo() and scopeId() return 0
and setFlowInfo / setScopeId leave the whole buffer unchanged. -/
theorem C6_family_isolation (s : Sockaddr) (v : Nat) (h : family s ≠ AF_INET6) :
    flowinfo s = 0 ∧ scopeId s = 0 ∧ setFlowInfo s v = s ∧ setScopeId s v = s := by
  unfold flowinfo scopeId setFlowInfo setScopeId
  rw [if_neg h, if_neg h, if_neg h, if_neg h]
  exact ⟨rfl, rfl, rfl, rfl⟩

/-- C6 witness: the AF_INET demo value with port 8080 at the concrete
flow and scope value 7. -/
theorem C6_witness :
    family demoV4port8080 ≠ AF_INET6 ∧
    (flowinfo demoV4port8080 = 0 ∧ scopeId demoV4port8080 = 0 ∧
     setFlowInfo demoV4port8080 7 = demoV4port8080 ∧
     setScopeId demoV4port8080 7 = demoV4port8080) :=
  ⟨by decide, C6_family_isolation demoV4port8080 7 (by decide)⟩

theorem htons_lt (v : Nat) : htons v < 65536 := by unfold htons; omega

theorem ntohs_htons (v : Nat) (hv : v < 65536) : ntohs (htons v) = v := by
  unfold ntohs htons
  have h1 : v % 256 * 256 + v / 256 % 256 = v % 256 * 256 + v / 256 := by omega
  rw [h1]
  have h2 : (v % 256 * 256 + v / 256) % 256 = v / 256 := by omega
  have h3 : (v % 256 * 256 + v / 256) / 256 = v % 256 := by omega
  rw [h2, h3]
  omega

theorem storeLoad16 (x : Nat) :
    x % 256 % 256 + 256 * (x / 256 % 256 % 256) = x % 65536 := by omega

theorem ntohs_lt (v : Nat) : ntohs v < 65536 := by unfold ntohs; omega

theorem sinPortWord_setPort (s : Sockaddr) (v : Nat) (order : ByteOrder) :
    sinPortWord (setPort s v order) = portStored v order % 65536 := by
  simp only [sinPortWord, setPort, idx_val, SADDR_SIZE, Nat.reduceMod, Nat.reduceEqDiff,
    reduceIte]
  exact storeLoad16 (portStored v order)

theorem family_setPort (s : Sockaddr) (v : Nat) (order : ByteOrder) :
    family (setPort s v order) = family s := by
  simp only [family, setPort, idx_val, SADDR_SIZE, Nat.reduceMod, Nat.reduceEqDiff,
    reduceIte]

/-- C7: setPort stores htons of the value for host order and the raw value
for network order into the port word shared by both layouts, and port()
returns the stored word byte-swapped, so setPort in host order followed by
port() returns the original 16-bit value, whatever the family bytes are. -/
theorem C7_setPort_port_roundtrip (s : Sockaddr) (v : Nat) (hv : v < 65536) :
    sinPortWord (setPort s v ByteOrder.HostOrder) = htons v ∧
    sinPortWord (setPort s v ByteOrder.NetworkOrder) = v ∧
    port (setPort s v ByteOrder.HostOrder) = v := by
  have h1 : sinPortWord (setPort s v ByteOrder.HostOrder) = htons v := by
    rw [sinPortWord_setPort]
    simp only [portStored]
    exact Nat.mod_eq_of_lt (htons_lt v)
  have h2 : sinPortWord (setPort s v ByteOrder.NetworkOrder) = v := by
    rw [sinPortWord_setPort]
    simp only [portStored]
    exact Nat.mod_eq_of_lt hv
  refine ⟨h1, h2, ?_⟩
  unfold port
  rw [h1]
  exact ntohs_htons v hv

/-- C7 witness: the roundtrip at the concrete port 8080. -/
theorem C7_witness :
    (8080 : Nat) < 65536 ∧
    (sinPortWord (setPort demoV4port8080 8080 ByteOrder.HostOrder) = htons 8080 ∧
     sinPortWord (setPort demoV4port8080 8080 ByteOrder.NetworkOrder) = 8080 ∧
     port (setPort demoV4port8080 8080 ByteOrder.HostOrder) = 8080) :=
  ⟨by decide, C7_setPort_port_roundtrip demoV4port8080 8080 (by decide)⟩

/-- C8: for a Sockaddr whose family is neither AF_INET nor AF_INET6,
setAddressAny leaves the scratch copy unchanged, so the byte-wise
comparison inside isAddressAny succeeds and it returns true. -/
theorem C8_isAddressAny_default_true (s : Sockaddr)
    (h4 : family s ≠ AF_INET) (h6 : family s ≠ AF_INET6) :
    isAddressAny s = true := by
  unfold isAddressAny setAddressAny
  rw [if_neg h4, if_neg h6]
  simp

/-- C8 witness: a default-constructed AF_UNSPEC instance is reported as
the wildcard address. -/
theorem C8_witness :
    family (sockaddrOfFamily AF_UNSPEC) ≠ AF_INET ∧
    family (sockaddrOfFamily AF_UNSPEC) ≠ AF_INET6 ∧
    isAddressAny (sockaddrOfFamily AF_UNSPEC) = true :=
  ⟨by decide, by decide,
    C8_isAddressAny_default_true (sockaddrOfFamily AF_UNSPEC) (by decide) (by decide)⟩

/-- C9: isAddressLoopback applies setAddressLoopback to a scratch copy and
therefore inherits its family precondition: the fatal path (none) is taken
exactly when the family is neither AF_INET nor AF_INET6, and under that
precondition it returns some Boolean normally. -/
theorem C9_isAddressLoopback_fatal_iff (s : Sockaddr) :
    (isAddressLoopback s = none ↔ (family s ≠ AF_INET ∧ family s ≠ AF_INET6)) ∧
    ((isAddressLoopback s).isSome = true ↔ (family s = AF_INET ∨ family s = AF_INET6)) := by
  unfold isAddressLoopback setAddressLoopback
  simp only [AF_INET, AF_INET6]
  by_cases h4 : family s = 2 <;> by_cases h6 : family s = 23 <;> simp [h4, h6]

/-- C10: setPort has no family guard: on every Sockaddr it stores the port
word unconditionally, every byte away from offsets 2 and 3 (the family
discriminator included) is left unchanged, and the stored word depends
only on the value and the byte order, never on the prior buffer. -/
theorem C10_setPort_frame (s : Sockaddr) (v : Nat) (order : ByteOrder)
    (k : Fin SADDR_SIZE) (h2 : k.val ≠ 2) (h3 : k.val ≠ 3) :
    (setPort s v order).buf k = s.buf k ∧
    family (setPort s v order) = family s ∧
    sinPortWord (setPort s v order) = portStored v order % 65536 := by
  refine ⟨?_, ?_, ?_⟩
  · simp [setPort, h2, h3]
  · simp only [family, setPort, idx_val, SADDR_SIZE, Nat.reduceMod, Nat.reduceEqDiff,
      reduceIte]
  · exact sinPortWord_setPort s v order

/-- C10 witness: writing port 5 in network order on the AF_INET demo value
leaves byte 7 and the family unchanged. -/
theorem C10_witness :
    ((idx 7).val ≠ 2 ∧ (idx 7).val ≠ 3) ∧
    ((setPort demoV4port8080 5 ByteOrder.NetworkOrder).buf (idx 7) =
        demoV4port8080.buf (idx 7) ∧
     family (setPort demoV4port8080 5 ByteOrder.NetworkOrder) = family demoV4port8080 ∧
     sinPortWord (setPort demoV4port8080 5 ByteOrder.NetworkOrder) =
        portStored 5 ByteOrder.NetworkOrder % 65536) :=
  ⟨⟨by decide, by decide⟩,
    C10_setPort_frame demoV4port8080 5 ByteOrder.NetworkOrder (idx 7) (by decide) (by decide)⟩

/-- C2: setAddressLoopback takes the unrecoverable fatal path exactly when
the family is neither AF_INET nor AF_INET6; for AF_INET it rewrites the
buffer to family AF_INET, the two preserved port bytes, the address bytes
127.0.0.1 and zeroes everywhere else; for AF_INET6 it rewrites the buffer
to family AF_INET6, the two preserved port bytes, a 1 in the last address
byte and zeroes everywhere else. -/
theorem C2_setAddressLoopback_spec (s : Sockaddr) (hB : ∀ k, s.buf k < 256) :
    (setAddressLoopback s = none ↔ (family s ≠ AF_INET ∧ family s ≠ AF_INET6)) ∧
    (family s = AF_INET → setAddressLoopback s =
      some ⟨fun k => if k.val = 0 then AF_INET
        else if k.val = 1 then 0
        else if k.val = 2 then s.buf (idx 2)
        else if k.val = 3 then s.buf (idx 3)
        else if k.val = 4 then 127
        else if k.val = 7 then 1
        else 0⟩) ∧
    (family s = AF_INET6 → setAddressLoopback s =
      some ⟨fun k => if k.val = 0 then AF_INET6
        else if k.val = 1 then 0
        else if k.val = 2 then s.buf (idx 2)
        else if k.val = 3 then s.buf (idx 3)
        else if k.val = 23 then 1
        else 0⟩) := by
  refine ⟨?_, ?_, ?_⟩
  · unfold setAddressLoopback
    simp only [AF_INET, AF_INET6]
    by_cases h4 : family s = 2 <;> by_cases h6 : family s = 23 <;> simp [h4, h6]
  · intro h4
    unfold setAddressLoopback
    rw [if_pos h4]
    refine congrArg some (congrArg Sockaddr.mk (funext fun k => ?_))
    split_ifs <;> first | rfl | decide | exact Nat.mod_eq_of_lt (hB _) | omega
  · intro h6
    have h4 : ¬ family s = AF_INET := by
      rw [h6]; decide
    unfold setAddressLoopback
    rw [if_neg h4, if_pos h6]
    refine congrArg some (congrArg Sockaddr.mk (funext fun k => ?_))
    split_ifs <;> first | rfl | decide | exact Nat.mod_eq_of_lt (hB _) | omega

/-- C2 witness: an AF_INET instance carrying port 8080 is rewritten to
loopback with the port bytes kept. -/
theorem C2_witness :
    (∀ k, demoV4port8080.buf k < 256) ∧
    family demoV4port8080 = AF_INET ∧
    setAddressLoopback demoV4port8080 =
      some ⟨fun k => if k.val = 0 then AF_INET
        else if k.val = 1 then 0
        else if k.val = 2 then demoV4port8080.buf (idx 2)
        else if k.val = 3 then demoV4port8080.buf (idx 3)
        else if k.val = 4 then 127
        else if k.val = 7 then 1
        else 0⟩ :=
  ⟨by decide, by decide,
    (C2_setAddressLoopback_spec demoV4port8080 (by decide)).2.1 (by decide)⟩

/-- C3 counterexample: the claim says a successful numeric-host parse
leaves the port untouched when the literal encodes none.  Starting from an
instance with port 8080 and applying the modelled successful parse of the
literal 127.0.0.1 (whose SOCKADDR_IN carries port 0), the call succeeds
and the resulting port is 0, not 8080. -/
theorem C3_counterexample :
    port demoV4port8080 = 8080 ∧
    (setAddressNumericHost demoV4port8080 numericHostResult127001).1 = true ∧
    port (setAddressNumericHost demoV4port8080 numericHostResult127001).2 = 0 ∧
    port (setAddressNumericHost demoV4port8080 numericHostResult127001).2 ≠
      port demoV4port8080 := by
  decide

/-- C3 (amended): on failure setAddress returns false and leaves the
instance entirely unchanged; on success it replaces the entire buffer with
the zero-padded parse result via setSockaddr, with no dependence on the
prior contents — in particular, since a literal-only parse does not set a
port, the prior port is overwritten with 0 rather than preserved. -/
theorem C3_setAddress_amended (s t : Sockaddr) (src : Nat → Nat) (len : Nat) :
    setAddressNumericHost s none = (false, s) ∧
    setAddressNumericHost s (some (src, len)) = (true, setSockaddrRaw s src len) ∧
    setSockaddrRaw s src len = setSockaddrRaw t src len ∧
    port (setAddressNumericHost s numericHostResult127001).2 = 0 := by
  refine ⟨rfl, rfl, rfl, ?_⟩
  simp only [setAddressNumericHost, numericHostResult127001, setSockaddrRaw, port,
    sinPortWord, ntohs, idx_val, SADDR_SIZE, Nat.reduceMod, Nat.reduceEqDiff,
    Nat.reduceLeDiff, reduceIte]
  norm_num

set_option maxHeartbeats 1600000 in
/-- C4: mapDualMode4To6 on an IPv4 endpoint produces the value whose
family is AF_INET6, whose port equals the original port, whose address
carries the v4-mapped prefix (bytes 10 and 11 equal 0xff, bytes 0..9 and
12..15 of the prefix zero except where overwritten), and whose last four
address bytes are the four IPv4 octets in stored order. -/
theorem C4_mapDualMode4To6_spec (s : Sockaddr) (hB : ∀ k, s.buf k < 256)
    (h4 : family s = AF_INET) :
    family (mapDualMode4To6 s) = AF_INET6 ∧
    port (mapDualMode4To6 s) = port s ∧
    mapDualMode4To6 s =
      ⟨fun k => if k.val = 0 then AF_INET6
        else if k.val = 1 then 0
        else if k.val = 2 then s.buf (idx 2)
        else if k.val = 3 then s.buf (idx 3)
        else if k.val = 18 then 255
        else if k.val = 19 then 255
        else if k.val = 20 then s.buf (idx 4)
        else if k.val = 21 then s.buf (idx 5)
        else if k.val = 22 then s.buf (idx 6)
        else if k.val = 23 then s.buf (idx 7)
        else 0⟩ := by
  have hb2 := hB (idx 2)
  have hb3 := hB (idx 3)
  have hword : port s = s.buf (idx 2) * 256 + s.buf (idx 3) := by
    unfold port ntohs sinPortWord
    omega
  have hX : (s.buf (idx 2) * 256 + s.buf (idx 3)) % 256 = s.buf (idx 3) := by omega
  have hY : (s.buf (idx 2) * 256 + s.buf (idx 3)) / 256 = s.buf (idx 2) := by omega
  have hhtons : portStored (port s) ByteOrder.HostOrder =
      s.buf (idx 3) * 256 + s.buf (idx 2) := by
    simp only [portStored]
    unfold htons
    rw [hword, hX, hY]
    omega
  have hstored2 : portStored (port s) ByteOrder.HostOrder % 256 = s.buf (idx 2) := by
    rw [hhtons]
    omega
  have hstored3 : portStored (port s) ByteOrder.HostOrder / 256 % 256 = s.buf (idx 3) := by
    have hdiv : (s.buf (idx 3) * 256 + s.buf (idx 2)) / 256 = s.buf (idx 3) := by omega
    rw [hhtons, hdiv]
    exact Nat.mod_eq_of_lt (hB _)
  refine ⟨?_, ?_, ?_⟩
  · unfold mapDualMode4To6
    rw [family_setPort]
    simp only [family, AF_INET6, idx_val, SADDR_SIZE, Nat.reduceMod, Nat.reduceDiv,
      Nat.reduceEqDiff, Nat.reduceMul, Nat.reduceAdd, reduceIte]
  · unfold port
    unfold mapDualMode4To6
    rw [sinPortWord_setPort]
    simp only [portStored]
    rw [Nat.mod_eq_of_lt (htons_lt _)]
    exact ntohs_htons (port s) (ntohs_lt _)
  · have hf0 : AF_INET6 % 256 = AF_INET6 := by decide
    have hf1 : AF_INET6 / 256 % 256 = 0 := by decide
    unfold mapDualMode4To6 setPort
    refine congrArg Sockaddr.mk (funext fun k => ?_)
    simp only []
    split_ifs <;>
      first
        | rfl
        | exact hstored2
        | exact hstored3
        | exact hf0
        | exact hf1
        | exact Nat.mod_eq_of_lt (hB _)
        | omega

/-- C4 witness: the endpoint 1.2.3.4 with port 80 maps to the v4-mapped
IPv6 endpoint with the same port. -/
theorem C4_witness :
    (∀ k, demoV4of1234.buf k < 256) ∧
    family demoV4of1234 = AF_INET ∧
    (family (mapDualMode4To6 demoV4of1234) = AF_INET6 ∧
     port (mapDualMode4To6 demoV4of1234) = port demoV4of1234 ∧
     mapDualMode4To6 demoV4of1234 =
      ⟨fun k => if k.val = 0 then AF_INET6
        else if k.val = 1 then 0
        else if k.val = 2 then demoV4of1234.buf (idx 2)
        else if k.val = 3 then demoV4of1234.buf (idx 3)
        else if k.val = 18 then 255
        else if k.val = 19 then 255
        else if k.val = 20 then demoV4of1234.buf (idx 4)
        else if k.val = 21 then demoV4of1234.buf (idx 5)
        else if k.val = 22 then demoV4of1234.buf (idx 6)
        else if k.val = 23 then demoV4of1234.buf (idx 7)
        else 0⟩) :=
  ⟨by decide, by decide, C4_mapDualMode4To6_spec demoV4of1234 (by decide) (by decide)⟩

/-- C5: for an IPv6-family rendering with trim requested, when the percent
character occurs at index i before the closing bracket at index j inside
the rendered length, every character below i is preserved, the characters
from j onwards are shifted left onto i, and every other character keeps
its previous value; when no closing bracket occurs, the characters from i
to the rendered length are overwritten with NUL and all others preserved.
The shifted reads all come from indices below the rendered length. -/
theorem C5_trimScope_spec (buf : List Nat) (len i j k : Nat)
    (hlen : len ≤ buf.length)
    (hi : stdFind buf 37 len = i) (hilt : i < len)
    (hj : stdFind buf 93 len = j) (hij : i ≤ j) :
    getNth (writeCompleteAddressTrim AF_INET6 true buf len) k =
      if j < len then
        if i ≤ k ∧ k < i + (len - j) then getNth buf (j + (k - i)) else getNth buf k
      else
        if i ≤ k ∧ k < len then 0 else getNth buf k := by
  have hjle : j ≤ len := hj ▸ stdFind_le buf 93 len
  unfold writeCompleteAddressTrim
  rw [if_pos rfl, if_pos rfl]
  simp only [trimScopeStep]
  rw [hi, hj]
  by_cases hjlt : j < len
  · rw [if_pos (by omega : i ≠ len), if_pos (by omega : j ≠ len), if_pos hjlt]
    exact copyLoop_getNth (len - j) buf i j hij k
  · rw [if_pos (by omega : i ≠ len), if_neg (by omega : ¬ j ≠ len), if_neg hjlt]
    rw [zeroLoop_getNth (len - i) buf i k]
    have h : i + (len - i) = len := by omega
    rw [h]

/-- C5 witness: trimming the rendering of the scoped endpoint, the
character at index 9 of the result is the shifted character from index
11 of the original rendering. -/
theorem C5_witness :
    16 ≤ demoRendered.length ∧
    stdFind demoRendered 37 16 = 8 ∧ 8 < 16 ∧
    stdFind demoRendered 93 16 = 10 ∧ 8 ≤ 10 ∧
    getNth (writeCompleteAddressTrim AF_INET6 true demoRendered 16) 9 =
      (if 10 < 16 then
        if 8 ≤ 9 ∧ 9 < 8 + (16 - 10) then getNth demoRendered (10 + (9 - 8))
        else getNth demoRendered 9
      else if 8 ≤ 9 ∧ 9 < 16 then 0 else getNth demoRendered 9) :=
  ⟨by decide, by decide, by decide, by decide, by decide,
    C5_trimScope_spec demoRendered 16 8 10 9 (by decide) (by decide) (by decide)
      (by decide) (by decide)⟩

/-- Concrete evaluation of the trim: the rendering of the scoped endpoint
becomes the same string without the percent-scope segment, terminator
included; the characters after the shifted terminator keep their previous
values, matching the in-place left shift of the code. -/
theorem trimScopeStep_demo_eval :
    writeCompleteAddressTrim AF_INET6 true demoRendered 16 =
      [91, 102, 101, 56, 48, 58, 58, 49, 93, 58, 52, 52, 51, 0, 51, 0]
        ++ List.replicate 49 0 := by
  decide

end ntl
